import Mathlib

/-!
Verification of the incremental log-tailing and aggregation engine of the
connectivity-tester repository (src/app/webserver.py and
src/app/mqtt_publisher.py), as a shallow embedding in Lean 4.

Modelling conventions:

* File contents and Python strings are `List Char`; the log is assumed to be
  ASCII-clean, so byte offsets (`os.stat().st_size`, `f.tell()`, `f.seek`)
  coincide with character counts.
* Python/JSON numbers are modelled as exact unnormalized rationals (`PyQ`):
  a numerator/denominator pair with structural ring operations, so that every
  definition evaluates inside the Lean kernel.  All numeric values appearing
  in the specification's examples (0, 45, 50, 100, 12.5, 18.1, ...) are exact
  in both IEEE-754 double precision and in `PyQ`, so the classification and
  averaging claims are unaffected by the exact-arithmetic modelling.
  Non-finite floats (inf/nan) are outside the model.
* `json.loads` is modelled by `jsonLoads`, a fuel-indexed recursive-descent
  parser for the JSON subset produced by the probe writer: objects, arrays,
  strings with escapes, numbers with fraction/exponent, true/false/null.
* Python's `dict.get(k)` returns `None` both when the key is missing and when
  the stored value is `None` (JSON `null`); the model collapses the two via
  `pyDictGet`, whose result is `JVal.null` in both cases, exactly as every
  call site in the source observes it.
* A raised-and-not-caught Python exception is modelled as `Option.none`
  propagating out of the embedded function.
-/

set_option maxRecDepth 40000

namespace ConnTester

/-! ## Exact unnormalized rationals standing in for Python numbers -/

/-- A Python/JSON number: an unnormalized fraction `num / den`.
Every constructor used by the model keeps `den` positive, so the
cross-multiplication comparisons below agree with the rational order. -/
structure PyQ where
  num : ℤ
  den : ℤ
  deriving DecidableEq

/-- Embed an integer. -/
def PyQ.ofInt (n : ℤ) : PyQ := ⟨n, 1⟩

/-- Embed a natural number. -/
def PyQ.ofNat (n : ℕ) : PyQ := ⟨(n : ℤ), 1⟩

/-- Addition of fractions (no normalization, hence kernel-computable). -/
def PyQ.add (a b : PyQ) : PyQ := ⟨a.num * b.den + b.num * a.den, a.den * b.den⟩

/-- Multiplication of fractions. -/
def PyQ.mul (a b : PyQ) : PyQ := ⟨a.num * b.num, a.den * b.den⟩

/-- Division of fractions. -/
def PyQ.div (a b : PyQ) : PyQ := ⟨a.num * b.den, a.den * b.num⟩

/-- Numeric equality test (`==` on Python numbers), by cross multiplication. -/
def PyQ.qeq (a b : PyQ) : Bool := a.num * b.den == b.num * a.den

/-- Numeric strict order (`<` on Python numbers); valid for positive `den`s. -/
def PyQ.qlt (a b : PyQ) : Bool := a.num * b.den < b.num * a.den

/-- Python `int()` truncation toward zero of a (positive-denominator) value. -/
def PyQ.trunc (a : PyQ) : ℤ := a.num.tdiv a.den

/-! ## JSON values (results of `json.loads`) -/

/-- A decoded JSON value, i.e. what `json.loads` hands back to the callers:
`null`/`True`/`False`/numbers/strings/lists/dicts.  Python decodes both ints
and floats to values we model uniformly as `PyQ`. -/
inductive JVal where
  | null
  | bool (b : Bool)
  | num (q : PyQ)
  | str (s : List Char)
  | arr (elems : List JVal)
  | obj (fields : List (List Char × JVal))

/-- Shorthand for turning a Lean string literal into the `List Char` world. -/
def lchars (s : String) : List Char := s.toList

/-! ## Character classes and low-level scanning helpers -/

/-- Whitespace stripped by Python `str.strip()` (the ASCII part). -/
def isPySpace (c : Char) : Bool :=
  c = ' ' || c = '\t' || c = '\n' || c = '\x0d' || c = '\x0b' || c = '\x0c'

/-- Whitespace skipped between JSON tokens. -/
def isJsonWs (c : Char) : Bool :=
  c = ' ' || c = '\t' || c = '\n' || c = '\x0d'

/-- Python `str.strip()`: drop leading and trailing whitespace. -/
def stripChars (s : List Char) : List Char :=
  ((s.dropWhile isPySpace).reverse.dropWhile isPySpace).reverse

/-- Skip JSON inter-token whitespace. -/
def skipWs (s : List Char) : List Char := s.dropWhile isJsonWs

/-- ASCII decimal digit test. -/
def isDigit (c : Char) : Bool := '0' ≤ c && c ≤ '9'

/-- Split a maximal run of leading digits from the rest. -/
def takeDigits : List Char → List Char × List Char
  | [] => ([], [])
  | c :: cs =>
    if isDigit c then
      let p := takeDigits cs
      (c :: p.1, p.2)
    else ([], c :: cs)

/-- Value of a digit run as a natural number. -/
def digitsToNat (ds : List Char) : ℕ :=
  ds.foldl (fun acc c => 10 * acc + (c.toNat - ('0').toNat)) 0

/-- Hexadecimal digit value, for `\uXXXX` escapes. -/
def hexVal (c : Char) : Option ℕ :=
  if '0' ≤ c && c ≤ '9' then some (c.toNat - ('0').toNat)
  else if 'a' ≤ c && c ≤ 'f' then some (c.toNat - ('a').toNat + 10)
  else if 'A' ≤ c && c ≤ 'F' then some (c.toNat - ('A').toNat + 10)
  else none

/-! ## The JSON parser modelling `json.loads` -/

/-- Body of a JSON string after the opening quote: returns the decoded
characters and the input following the closing quote.  Surrogate-pair
recombination of `\uXXXX` escapes is not modelled (no claim exercises it). -/
def parseJStrBody : List Char → Option (List Char × List Char)
  | [] => none
  | '"' :: r => some ([], r)
  | '\\' :: 'u' :: a :: b :: c :: d :: r => do
    let ha ← hexVal a
    let hb ← hexVal b
    let hc ← hexVal c
    let hd ← hexVal d
    let p ← parseJStrBody r
    some (Char.ofNat (((ha * 16 + hb) * 16 + hc) * 16 + hd) :: p.1, p.2)
  | '\\' :: e :: r => do
    let c ← match e with
      | '"' => some '"'
      | '\\' => some '\\'
      | '/' => some '/'
      | 'b' => some '\x08'
      | 'f' => some '\x0c'
      | 'n' => some '\n'
      | 'r' => some '\x0d'
      | 't' => some '\t'
      | _ => none
    let p ← parseJStrBody r
    some (c :: p.1, p.2)
  | c :: r =>
    if c.toNat < 32 then none
    else do
      let p ← parseJStrBody r
      some (c :: p.1, p.2)

/-- Optional exponent part of a number (`e`/`E`, optional sign, digits);
returns the signed exponent (0 when absent) and the remaining input. -/
def parseExpPart : List Char → Option (ℤ × List Char)
  | c :: r =>
    if c = 'e' || c = 'E' then
      let sr : ℤ × List Char :=
        match r with
        | '+' :: t => (1, t)
        | '-' :: t => (-1, t)
        | t => (1, t)
      let p := takeDigits sr.2
      if p.1.isEmpty then none else some (sr.1 * (digitsToNat p.1 : ℤ), p.2)
    else some (0, c :: r)
  | [] => some (0, [])

/-- Scale a fraction by a signed power of ten. -/
def applyExp (q : PyQ) (e : ℤ) : PyQ :=
  if 0 ≤ e then ⟨q.num * (10 : ℤ) ^ e.toNat, q.den⟩
  else ⟨q.num, q.den * (10 : ℤ) ^ (-e).toNat⟩

/-- JSON number grammar: optional minus, integer part without leading zeros,
optional fraction, optional exponent.  (The CPython extension accepting
`NaN`/`Infinity` is outside the exact-arithmetic model.) -/
def parseJsonNumber (cs0 : List Char) : Option (PyQ × List Char) :=
  let sp : Bool × List Char :=
    match cs0 with
    | '-' :: t => (true, t)
    | t => (false, t)
  let ip := takeDigits sp.2
  if ip.1.isEmpty then none
  else if 1 < ip.1.length && ip.1.head? = some '0' then none
  else
    let fr : Option (List Char × List Char) :=
      match ip.2 with
      | '.' :: t =>
        let fd := takeDigits t
        if fd.1.isEmpty then none else some (fd.1, fd.2)
      | t => some ([], t)
    match fr with
    | none => none
    | some (fds, r2) =>
      match parseExpPart r2 with
      | none => none
      | some (e, r3) =>
        let sgn : ℤ := if sp.1 then -1 else 1
        some (applyExp ⟨sgn * (digitsToNat (ip.1 ++ fds) : ℤ),
                        (10 : ℤ) ^ fds.length⟩ e, r3)

mutual

/-- One JSON value, fuel-indexed so that all recursion is structural. -/
def parseVal : ℕ → List Char → Option (JVal × List Char)
  | 0, _ => none
  | fuel + 1, cs =>
    match skipWs cs with
    | [] => none
    | '"' :: r =>
      match parseJStrBody r with
      | none => none
      | some (s, rest) => some (JVal.str s, rest)
    | '\x7b' :: r =>
      match skipWs r with
      | '\x7d' :: r2 => some (JVal.obj [], r2)
      | _ => parseObjRest fuel r []
    | '[' :: r =>
      match skipWs r with
      | ']' :: r2 => some (JVal.arr [], r2)
      | _ => parseArrRest fuel r []
    | 't' :: 'r' :: 'u' :: 'e' :: r => some (JVal.bool true, r)
    | 'f' :: 'a' :: 'l' :: 's' :: 'e' :: r => some (JVal.bool false, r)
    | 'n' :: 'u' :: 'l' :: 'l' :: r => some (JVal.null, r)
    | cs1 =>
      match parseJsonNumber cs1 with
      | none => none
      | some (q, rest) => some (JVal.num q, rest)
termination_by structural fuel _ => fuel

/-- Elements of a non-empty JSON array, after the opening bracket. -/
def parseArrRest : ℕ → List Char → List JVal → Option (JVal × List Char)
  | 0, _, _ => none
  | fuel + 1, cs, acc =>
    match parseVal fuel cs with
    | none => none
    | some (v, r) =>
      match skipWs r with
      | ',' :: r2 => parseArrRest fuel r2 (acc ++ [v])
      | ']' :: r2 => some (JVal.arr (acc ++ [v]), r2)
      | _ => none
termination_by structural fuel _ _ => fuel

/-- Members of a non-empty JSON object, after the opening brace. -/
def parseObjRest : ℕ → List Char → List (List Char × JVal) →
    Option (JVal × List Char)
  | 0, _, _ => none
  | fuel + 1, cs, acc =>
    match skipWs cs with
    | '"' :: r =>
      match parseJStrBody r with
      | none => none
      | some (k, r1) =>
        match skipWs r1 with
        | ':' :: r2 =>
          match parseVal fuel r2 with
          | none => none
          | some (v, r3) =>
            match skipWs r3 with
            | ',' :: r4 => parseObjRest fuel r4 (acc ++ [(k, v)])
            | '\x7d' :: r4 => some (JVal.obj (acc ++ [(k, v)]), r4)
            | _ => none
        | _ => none
    | _ => none
termination_by structural fuel _ _ => fuel

end

/-- Model of `json.loads` applied to one (already stripped) log line:
parse one value, tolerate surrounding whitespace, reject trailing garbage.
`none` stands for `json.JSONDecodeError`. -/
def jsonLoads (cs : List Char) : Option JVal :=
  match parseVal (2 * cs.length + 8) cs with
  | none => none
  | some (v, rest) => if (skipWs rest).isEmpty then some v else none

/-! ## Models of the Python builtins used by the source -/

/-- Field access `record.get(key)`.  Python's `dict.get` returns `None` when
the key is missing; a stored JSON `null` also surfaces as `None`.  The model
therefore returns `JVal.null` in both cases.  Duplicate keys cannot arise
from `jsonLoads`-produced objects (the last occurrence wins there as in
CPython), but for safety the lookup takes the last match. -/
def pyDictGet (fields : List (List Char × JVal)) (key : List Char) : JVal :=
  (fields.foldl (fun acc kv => if kv.1 = key then some kv.2 else acc)
    none).getD JVal.null

/-- Python truthiness of a decoded JSON value (`if x:`). -/
def pyTruthy : JVal → Bool
  | JVal.null => false
  | JVal.bool b => b
  | JVal.num q => !(q.num == 0)
  | JVal.str s => !s.isEmpty
  | JVal.arr xs => !xs.isEmpty
  | JVal.obj fs => !fs.isEmpty

/-- Model of `isinstance(x, (int, float))` on a decoded JSON value.  Python
booleans are instances of `int`, so they satisfy the test. -/
def pyIsNumber : JVal → Bool
  | JVal.num _ => true
  | JVal.bool _ => true
  | _ => false

/-- Numeric value of something satisfying `pyIsNumber` (`True` counts as 1,
`False` as 0).  The fallback 0 for the remaining constructors is never
consulted: every use is guarded by `pyIsNumber`. -/
def pyNumVal : JVal → PyQ
  | JVal.num q => q
  | JVal.bool b => PyQ.ofInt (if b then 1 else 0)
  | _ => PyQ.ofInt 0

/-- Python `float(str)` literal grammar: optional surrounding whitespace,
optional sign, digits with optional point and optional exponent (at least one
digit overall).  `inf`/`nan`/digit-group underscores are outside the model
and are treated as failures. -/
def pyFloatLit (s0 : List Char) : Option PyQ :=
  let s := stripChars s0
  let sp : Bool × List Char :=
    match s with
    | '-' :: t => (true, t)
    | '+' :: t => (false, t)
    | t => (false, t)
  let ip := takeDigits sp.2
  let fd : List Char × List Char :=
    match ip.2 with
    | '.' :: t => takeDigits t
    | t => ([], t)
  if ip.1.isEmpty && fd.1.isEmpty then none
  else
    match parseExpPart fd.2 with
    | none => none
    | some (e, r3) =>
      if r3.isEmpty then
        some (applyExp ⟨(if sp.1 then -1 else 1) *
                          (digitsToNat (ip.1 ++ fd.1) : ℤ),
                        (10 : ℤ) ^ fd.1.length⟩ e)
      else none

/-- Model of `float(x)` on a decoded JSON value; `none` stands for the
`TypeError` (`None`, lists, dicts) or `ValueError` (unparsable string)
that the call would raise. -/
def pyFloat : JVal → Option PyQ
  | JVal.num q => some q
  | JVal.bool b => some (PyQ.ofInt (if b then 1 else 0))
  | JVal.str s => pyFloatLit s
  | _ => none

/-- Decimal digits of an integer. -/
def intDigits (n : ℤ) : List Char :=
  (if n < 0 then ['-'] else []) ++ Nat.toDigits 10 n.natAbs

/-- Model of `str(x)` on a decoded JSON value, used when a truthy
`target`/`dst_host`/`public_ip` is added to a day's set.  Those fields are
strings in the data model; the renderings of the other constructors are
best-effort placeholders (Python's shortest-roundtrip float repr is not
reproduced) and are not exercised by any claim. -/
def pyStrOf : JVal → List Char
  | JVal.str s => s
  | JVal.bool true => lchars ("True")
  | JVal.bool false => lchars ("False")
  | JVal.null => lchars ("None")
  | JVal.num q =>
    if q.den = 1 then intDigits q.num
    else intDigits q.num ++ '/' :: intDigits q.den
  | JVal.arr _ => lchars ("<arr>")
  | JVal.obj _ => lchars ("<obj>")

/-! ## Text-file line iteration -/

/-- Auxiliary splitter: Python's `for line in f` / `f.readlines()` yields
segments ending in the newline character, plus a final unterminated segment
when the file does not end in a newline. -/
def splitLinesAux : List Char → List Char → List (List Char)
  | acc, [] => if acc.isEmpty then [] else [acc.reverse]
  | acc, c :: r =>
    if c = '\n' then (acc.reverse ++ ['\n']) :: splitLinesAux [] r
    else splitLinesAux (c :: acc) r

/-- The lines of a text file as Python's line iterator produces them
(newline kept; a trailing segment without a newline is included). -/
def pyLines (s : List Char) : List (List Char) := splitLinesAux [] s

/-! ## Per-day aggregate state (webserver.py `_ensure_day_state`) -/

/-- The mutable per-day dict created by `_ensure_day_state`.  The redundant
`"date"` entry (always equal to the dict key) is represented by the key of
the surrounding map.  Python sets are represented as insertion-ordered
duplicate-free lists; they are only ever observed through `sorted()`. -/
structure DayState where
  totalProbes : ℕ
  totalSent : ℤ
  totalReceived : ℤ
  lossSum : PyQ
  lossCount : ℕ
  goodProbes : ℕ
  degradedProbes : ℕ
  downProbes : ℕ
  rttSum : PyQ
  rttCount : ℕ
  rttMin : Option PyQ
  rttMax : Option PyQ
  targets : List (List Char)
  publicIps : List (List Char)
  deriving DecidableEq

/-- The fresh day dict built by `_ensure_day_state` for an unseen day. -/
def initDayState : DayState :=
  { totalProbes := 0, totalSent := 0, totalReceived := 0
    lossSum := PyQ.ofInt 0, lossCount := 0
    goodProbes := 0, degradedProbes := 0, downProbes := 0
    rttSum := PyQ.ofInt 0, rttCount := 0
    rttMin := none, rttMax := none
    targets := [], publicIps := [] }

/-- Python `set.add`. -/
def setAdd (xs : List (List Char)) (x : List Char) : List (List Char) :=
  if x ∈ xs then xs else xs ++ [x]

/-- The `daily_state` dict: insertion-ordered map from `YYYY-MM-DD` keys to
day aggregates, exactly a Python dict. -/
abbrev DailyMap := List (List Char × DayState)

/-- Dict lookup (keys are unique by construction). -/
def dayLookup : DailyMap → List Char → Option DayState
  | [], _ => none
  | kv :: rest, k => if kv.1 = k then some kv.2 else dayLookup rest k

/-- Dict store: replace in place, or append a new key at the end —
Python dict insertion-order semantics. -/
def daySet : DailyMap → List Char → DayState → DailyMap
  | [], k, v => [(k, v)]
  | kv :: rest, k, v =>
    if kv.1 = k then (k, v) :: rest else kv :: daySet rest k v

/-- Python `ts.split("T")[0]`: the prefix before the first `'T'`
(the whole string when no `'T'` occurs). -/
def splitT0 (s : List Char) : List Char := s.takeWhile (fun c => c ≠ 'T')

/-! ## Merging one record into a day aggregate
(webserver.py, body of the read loop of `build_daily_summary_from_file`,
lines 206-244) -/

/-- Line 206: `d["total_probes"] += 1`. -/
def bumpTotalProbes (d : DayState) : DayState :=
  { d with totalProbes := d.totalProbes + 1 }

/-- Lines 208-213: accumulate numeric `sent`/`received` via `int()`. -/
def applySentRecv (fields : List (List Char × JVal)) (d : DayState) :
    DayState :=
  let sent := pyDictGet fields (lchars ("sent"))
  let recv := pyDictGet fields (lchars ("received"))
  let d1 :=
    if pyIsNumber sent then
      { d with totalSent := d.totalSent + (pyNumVal sent).trunc }
    else d
  if pyIsNumber recv then
    { d1 with totalReceived := d1.totalReceived + (pyNumVal recv).trunc }
  else d1

/-- Lines 215-224: if `loss_pct` passes `isinstance(loss, (int, float))`,
accumulate the loss sum/count and classify `== 0` → good, `== 100` → down,
otherwise degraded; a non-numeric `loss_pct` leaves all of this untouched. -/
def applyLoss (fields : List (List Char × JVal)) (d : DayState) : DayState :=
  let loss := pyDictGet fields (lchars ("loss_pct"))
  if pyIsNumber loss then
    let lq := pyNumVal loss
    let da := { d with lossSum := d.lossSum.add lq
                       lossCount := d.lossCount + 1 }
    if lq.qeq (PyQ.ofInt 0) then
      { da with goodProbes := da.goodProbes + 1 }
    else if lq.qeq (PyQ.ofInt 100) then
      { da with downProbes := da.downProbes + 1 }
    else
      { da with degradedProbes := da.degradedProbes + 1 }
  else d

/-- Lines 226-237: if `float(rtt_avg_ms)` succeeds, accumulate the RTT
sum/count and update the running min/max (the first value seeds both);
otherwise (`TypeError`/`ValueError`) leave all four untouched. -/
def applyRtt (fields : List (List Char × JVal)) (d : DayState) : DayState :=
  match pyFloat (pyDictGet fields (lchars ("rtt_avg_ms"))) with
  | none => d
  | some rv =>
    let db := { d with rttSum := d.rttSum.add rv
                       rttCount := d.rttCount + 1 }
    let dc :=
      match db.rttMin with
      | none => { db with rttMin := some rv }
      | some m => if rv.qlt m then { db with rttMin := some rv } else db
    match dc.rttMax with
    | none => { dc with rttMax := some rv }
    | some m => if m.qlt rv then { dc with rttMax := some rv } else dc

/-- Lines 239-244: add `str(target or dst_host)` to the day's target set
when truthy, and `str(public_ip)` to the IP set when truthy. -/
def applySets (fields : List (List Char × JVal)) (d : DayState) : DayState :=
  let tgtA := pyDictGet fields (lchars ("target"))
  let tgt := if pyTruthy tgtA then tgtA else pyDictGet fields (lchars ("dst_host"))
  let d1 :=
    if pyTruthy tgt then
      { d with targets := setAdd d.targets (pyStrOf tgt) }
    else d
  let pub := pyDictGet fields (lchars ("public_ip"))
  if pyTruthy pub then
    { d1 with publicIps := setAdd d1.publicIps (pyStrOf pub) }
  else d1

/-- The field-accumulation part of the loop body of
`build_daily_summary_from_file` (lines 206-244), i.e. everything applied to
the day dict `d` obtained from `_ensure_day_state`, stage by stage in
source order. -/
def mergeFields (d0 : DayState) (fields : List (List Char × JVal)) :
    DayState :=
  applySets fields (applyRtt fields (applyLoss fields
    (applySentRecv fields (bumpTotalProbes d0))))

/-- One loop iteration of `build_daily_summary_from_file` applied to a
successfully decoded record `rec`: skip records with a falsy `timestamp`,
derive the day key, and merge.  `none` models the uncaught exceptions the
interpreter would raise here: `rec.get` on a non-dict decoded value, or
`.split` on a truthy non-string timestamp (`AttributeError`). -/
def mergeRecord (daily : DailyMap) (rec : JVal) : Option DailyMap :=
  match rec with
  | JVal.obj fields =>
    let ts := pyDictGet fields (lchars ("timestamp"))
    if !pyTruthy ts then some daily
    else
      match ts with
      | JVal.str s =>
        let day := splitT0 s
        let d := (dayLookup daily day).getD initDayState
        some (daySet daily day (mergeFields d fields))
      | _ => none
  | _ => none

/-- One raw line of the read loop: strip, skip blank lines, parse
(`json.JSONDecodeError` → skip), merge. -/
def processLine (daily : DailyMap) (rawLine : List Char) : Option DailyMap :=
  let line := stripChars rawLine
  if line.isEmpty then some daily
  else
    match jsonLoads line with
    | none => some daily
    | some rec => mergeRecord daily rec

/-- The whole read loop over a list of raw lines. -/
def processLines : DailyMap → List (List Char) → Option DailyMap
  | daily, [] => some daily
  | daily, l :: rest =>
    match processLine daily l with
    | none => none
    | some d => processLines d rest

/-! ## Rendering snapshots (webserver.py `_summaries_from_state`) -/

/-- One rendered row of the daily summary. -/
structure DaySummary where
  date : List Char
  totalProbes : ℕ
  uptimePct : PyQ
  avgLossPct : PyQ
  avgRttMs : Option PyQ
  minRttMs : Option PyQ
  maxRttMs : Option PyQ
  goodProbes : ℕ
  degradedProbes : ℕ
  downProbes : ℕ
  targets : List (List Char)
  publicIps : List (List Char)
  deriving DecidableEq

/-- Lexicographic comparison of strings by code point (Python `<=` on
`str`, restricted to what `sorted` and `list.sort(key=...)` need). -/
def charListLe : List Char → List Char → Bool
  | [], _ => true
  | _ :: _, [] => false
  | a :: as, b :: bs =>
    if a.val < b.val then true
    else if b.val < a.val then false
    else charListLe as bs

/-- Insertion step of a sort on strings. -/
def insertSorted (x : List Char) : List (List Char) → List (List Char)
  | [] => [x]
  | y :: ys => if charListLe x y then x :: y :: ys else y :: insertSorted x ys

/-- Python `sorted()` on a set of strings. -/
def sortStrings (xs : List (List Char)) : List (List Char) :=
  xs.foldr insertSorted []

/-- One entry of `_summaries_from_state`'s result list. -/
def summaryRow (day : List Char) (d : DayState) : DaySummary :=
  { date := day
    totalProbes := d.totalProbes
    uptimePct :=
      if 0 < d.totalProbes then
        ((PyQ.ofInt 100).mul
          (PyQ.ofInt ((d.totalProbes : ℤ) - (d.downProbes : ℤ)))).div
          (PyQ.ofNat d.totalProbes)
      else PyQ.ofInt 0
    avgLossPct :=
      if 0 < d.lossCount then d.lossSum.div (PyQ.ofNat d.lossCount)
      else PyQ.ofInt 0
    avgRttMs :=
      if 0 < d.rttCount then some (d.rttSum.div (PyQ.ofNat d.rttCount))
      else none
    minRttMs := d.rttMin
    maxRttMs := d.rttMax
    goodProbes := d.goodProbes
    degradedProbes := d.degradedProbes
    downProbes := d.downProbes
    targets := sortStrings d.targets
    publicIps := sortStrings d.publicIps }

/-- Insertion step of `result.sort(key=lambda x: x["date"])`. -/
def insertRow (r : DaySummary) : List DaySummary → List DaySummary
  | [] => [r]
  | y :: ys => if charListLe r.date y.date then r :: y :: ys else y :: insertRow r ys

/-- `_summaries_from_state`: render every known day and sort ascending by
date (dict keys are unique, so sort stability is immaterial). -/
def summariesFromState (daily : DailyMap) : List DaySummary :=
  (daily.map (fun kv => summaryRow kv.1 kv.2)).foldr insertRow []

/-! ## The summary cache state machine
(webserver.py `SUMMARY_CACHE` / `reset_summary_cache` /
`build_daily_summary_from_file`) -/

/-- The on-disk file as one call observes it: its contents and its inode.
`os.stat().st_size` is `content.length` under the ASCII convention. -/
structure FileView where
  content : List Char
  inode : ℕ
  deriving DecidableEq

/-- The module-level `SUMMARY_CACHE` dict.  The `build_ts` wall-clock field
is omitted: it is written but never read by any consumer covered here. -/
structure CacheState where
  dailyState : DailyMap
  summary : List DaySummary
  position : ℕ
  inode : Option ℕ
  size : ℕ
  deriving DecidableEq

/-- The state established by `reset_summary_cache()` (also the initial
state at process start). -/
def initialCache : CacheState :=
  { dailyState := [], summary := [], position := 0, inode := none, size := 0 }

/-- Result of one `build_daily_summary_from_file()` call.  `openedFile`
records whether the call reached the `open(LOG_FILE)` block, i.e. whether
the file was (re)read rather than served from the cache. -/
structure BuildResult where
  cache : CacheState
  rows : List DaySummary
  openedFile : Bool
  deriving DecidableEq

/-- The rotation/truncation check at the top of
`build_daily_summary_from_file`: a changed inode or a shrunken file resets
the whole cache. -/
def rotationChecked (cache : CacheState) (fv : FileView) : CacheState :=
  if cache.inode ≠ some fv.inode || fv.content.length < cache.size then
    initialCache
  else cache

/-- `build_daily_summary_from_file()`.  `file = none` models a missing log
file (`os.path.exists` false, or the stat racing a deletion): the cache is
reset and `[]` returned.  Otherwise: run the rotation check; serve the
cached summary verbatim when the inode matches, the position equals the
file size and the cached summary is non-empty; else read from the stored
position to end of file (Python's line iterator also yields a trailing
line with no terminating newline), merge every parsed record, and store
`f.tell()` — which after iterating to EOF is `max position length` — plus
the new size, inode and rendered summary.  The outer `none` models the
`AttributeError` the loop can raise on pathological decoded values; the
partial mutation of the global dict in that case is not tracked. -/
def buildDailySummaryFromFile (cache : CacheState) (file : Option FileView) :
    Option BuildResult :=
  match file with
  | none => some ⟨initialCache, [], false⟩
  | some fv =>
    let c := rotationChecked cache fv
    if c.inode = some fv.inode && c.position = fv.content.length &&
        !c.summary.isEmpty then
      some ⟨c, c.summary, false⟩
    else
      match processLines c.dailyState (pyLines (fv.content.drop c.position)) with
      | none => none
      | some daily =>
        let rows := summariesFromState daily
        some ⟨{ dailyState := daily, summary := rows
                position := max c.position fv.content.length
                inode := some fv.inode, size := fv.content.length },
              rows, true⟩

/-! ## The bounded tail read (webserver.py `read_recent_records`) -/

/-- Python `lines[-n:]`: the last `n` elements — except that `lines[-0:]`
is the whole list. -/
def pySliceLast (n : ℕ) (xs : List (List Char)) : List (List Char) :=
  if n = 0 then xs else xs.drop (xs.length - n)

/-- `read_recent_records()` with `MAX_RECORDS = maxRecords`: read all lines,
keep the last `maxRecords` of them, then drop blank and malformed lines.
`file = none` models the missing-file and read-error early returns. -/
def readRecentRecords (maxRecords : ℕ) (file : Option (List Char)) :
    List JVal :=
  match file with
  | none => []
  | some content =>
    (pySliceLast maxRecords (pyLines content)).filterMap (fun l =>
      let line := stripChars l
      if line.isEmpty then none else jsonLoads line)

/-! ## The MQTT relay (mqtt_publisher.py `MqttPublisher`) -/

/-- The relay's cursor state (`_last_size`, `_last_inode`). -/
structure RelayState where
  lastSize : ℕ
  lastInode : Option ℕ
  deriving DecidableEq

/-- A message handed to `_publish` (which itself swallows transport
errors, so emission is what can be observed).  The status payload is kept
structured rather than `json.dumps`-serialized. -/
inductive RelayMsg where
  | measurement (payload : List Char)
  | status (timestamp : JVal) (target : JVal) (lossPct : JVal)
      (rttAvgMs : JVal) (internetUp : Option Bool)

/-- The `internet_up` derivation of `MqttPublisher.run` (lines 116-121):
`internet_up = loss is not None and float(loss) < 100`, with
`TypeError`/`ValueError` from `float` mapped to `None`.  When `loss_pct`
is missing (or JSON null) the conjunction short-circuits to `False`
without ever calling `float`, so the result is `some false`, not `none`. -/
def internetUpOfFields (fields : List (List Char × JVal)) : Option Bool :=
  match pyDictGet fields (lchars ("loss_pct")) with
  | JVal.null => some false
  | v =>
    match pyFloat v with
    | some q => some (q.qlt (PyQ.ofInt 100))
    | none => none

/-- The status record published to the status topic (lines 123-131). -/
def statusOfFields (fields : List (List Char × JVal)) : RelayMsg :=
  RelayMsg.status
    (pyDictGet fields (lchars ("timestamp")))
    (let a := pyDictGet fields (lchars ("target"))
     if pyTruthy a then a else pyDictGet fields (lchars ("dst_host")))
    (pyDictGet fields (lchars ("loss_pct")))
    (pyDictGet fields (lchars ("rtt_avg_ms")))
    (internetUpOfFields fields)

/-- Model of `handle.tell()` as called on line 109 of mqtt_publisher.py,
inside the active `for line in handle` iteration.  `LOG_PATH.open("r")`
yields an `io.TextIOWrapper`, and CPython's `TextIOWrapper.tell` raises
`OSError("telling position disabled by next() call")` whenever the line
iterator is active (re-enabled only once iteration finishes or after a
seek).  The call on line 109 is always under an active iteration, so it
always raises; `none` models that `OSError`. -/
def tellDuringIteration : Option ℕ := none

/-- The `for line in handle` loop of `MqttPublisher.run` (lines 105-132)
over the lines read from the saved offset.  Returns the final `_last_size`,
the messages handed to `_publish`, and whether the loop was aborted by an
exception (swallowed by the broad `except Exception` in `run`).  The branch
under `some t` is the translation of the loop body as written; it is
unreachable because `tellDuringIteration` always raises. -/
def relayConsume (lastSize : ℕ) (out : List RelayMsg) :
    List (List Char) → ℕ × List RelayMsg × Bool
  | [] => (lastSize, out, false)
  | raw :: rest =>
    let line := stripChars raw
    if line.isEmpty then relayConsume lastSize out rest
    else
      match tellDuringIteration with
      | none => (lastSize, out, true)
      | some t =>
        let out1 := out ++ [RelayMsg.measurement line]
        match jsonLoads line with
        | none => relayConsume t out1 rest
        | some rec =>
          match rec with
          | JVal.obj fields => relayConsume t (out1 ++ [statusOfFields fields]) rest
          | _ => (t, out1, true)

/-- One iteration of the polling loop of `MqttPublisher.run`: the missing
file case sleeps, the inode/shrink check resets the cursor to 0, then the
file is opened, sought to `_last_size` and iterated.  Returns the new relay
state and the messages handed to `_publish` during the poll. -/
def relayPoll (st : RelayState) (file : Option FileView) :
    RelayState × List RelayMsg :=
  match file with
  | none => (st, [])
  | some fv =>
    let st1 : RelayState :=
      if st.lastInode ≠ some fv.inode || fv.content.length < st.lastSize then
        { lastSize := 0, lastInode := some fv.inode }
      else st
    let r := relayConsume st1.lastSize [] (pyLines (fv.content.drop st1.lastSize))
    ({ st1 with lastSize := r.1 }, r.2.1)

/-! ## Derived notions used to state the claims -/

/-- The char offset just past the last `'\n'` of a file (0 when it has
none): the boundary that a tailer honouring complete-lines-only would not
read beyond. -/
def offsetAfterLastNewline (s : List Char) : ℕ :=
  s.length - (s.reverse.takeWhile (fun c => c ≠ '\n')).length

/-- A decoded record that the read loop of `build_daily_summary_from_file`
merges (or skips) without raising: a JSON object whose `timestamp` entry is
either a string or falsy.  A non-object, or a truthy non-string timestamp,
makes the loop raise `AttributeError`. -/
def recMergeSafe : JVal → Bool
  | JVal.obj fields =>
    match pyDictGet fields (lchars ("timestamp")) with
    | JVal.str _ => true
    | v => !pyTruthy v
  | _ => false

/-- A raw line the read loop consumes without raising: blank and malformed
lines are skipped, parsed records must be `recMergeSafe`. -/
def lineSafe (l : List Char) : Bool :=
  match jsonLoads (stripChars l) with
  | some rec => recMergeSafe rec
  | none => true

/-- A record string fit for appending to the log as one complete line:
no embedded newline, and its encoded line does not make the loop raise.
Every "valid record" in the sense of the specification (a parseable JSON
object carrying a string timestamp) satisfies this. -/
def appendSafeLine (r : List Char) : Bool :=
  r.all (fun c => c ≠ '\n') && lineSafe (r ++ ['\n'])

/-- Append one record as a newline-terminated line. -/
def encodeLine (r : List Char) : List Char := r ++ ['\n']

/-- The bytes appended for a batch of records. -/
def encodeChunk (rs : List (List Char)) : List Char :=
  rs.foldr (fun r acc => encodeLine r ++ acc) []

/-- All records of a sequence of appended batches, in order. -/
def allRecords (chunks : List (List (List Char))) : List (List Char) :=
  chunks.foldr (fun c acc => c ++ acc) []

/-- The cache state reached after a successful build over `content`:
daily aggregates `daily`, their rendering, and cursor/size at end of file. -/
def goodCache (ino : ℕ) (content : List Char) (daily : DailyMap) : CacheState :=
  { dailyState := daily, summary := summariesFromState daily
    position := content.length, inode := some ino, size := content.length }

/-- A sequence of `get_snapshot()` calls: before the `i`-th call the `i`-th
chunk of records is appended to the log; the result is the snapshot
returned by the final call (`none` when some call raised, or when no call
is made at all). -/
def runIncremental (ino : ℕ) (cache : CacheState) (sofar : List Char) :
    List (List (List Char)) → Option (List DaySummary)
  | [] => none
  | chunk :: rest =>
    let content := sofar ++ encodeChunk chunk
    match buildDailySummaryFromFile cache (some ⟨content, ino⟩) with
    | none => none
    | some r =>
      match rest with
      | [] => some r.rows
      | _ :: _ => runIncremental ino r.cache content rest

/-! ## Concrete log contents used by counterexamples and witnesses -/

/-- Three same-day records with loss 0 / 50 / 100 and RTT 12.5 / absent /
18.1 — the worked example of the specification. -/
def exLine1 : List Char :=
  lchars ("\x7b\"timestamp\": \"2024-06-01T00:00:00Z\", \"target\": \"GoogleDNS\", \"loss_pct\": 0, \"rtt_avg_ms\": 12.5\x7d\n")

/-- Second example record (loss 50, no RTT). -/
def exLine2 : List Char :=
  lchars ("\x7b\"timestamp\": \"2024-06-01T01:00:00Z\", \"loss_pct\": 50\x7d\n")

/-- Third example record (loss 100, RTT 18.1). -/
def exLine3 : List Char :=
  lchars ("\x7b\"timestamp\": \"2024-06-01T02:00:00Z\", \"loss_pct\": 100, \"rtt_avg_ms\": 18.1\x7d\n")

/-- The example log. -/
def exContent : List Char := exLine1 ++ exLine2 ++ exLine3

/-- The example log as an on-disk file with inode 7. -/
def exFv : FileView := ⟨exContent, 7⟩

/-- One summary build over the example log from a fresh cache. -/
def exRun : Option BuildResult :=
  buildDailySummaryFromFile initialCache (some exFv)

/-- A log whose complete first line is malformed and whose trailing line is
a valid record not terminated by a newline. -/
def c1content : List Char :=
  lchars ("x\n\x7b\"timestamp\":\"2024-06-02T00:00:00Z\"\x7d")

/-- One summary build over `c1content` from a fresh cache. -/
def c1run : Option BuildResult :=
  buildDailySummaryFromFile initialCache (some ⟨c1content, 1⟩)

/-- A two-line log: a valid JSON line followed by a malformed line. -/
def c3content : List Char := lchars ("\x7b\"a\": 1\x7d\nnotjson")

/-- A log of six valid one-field records. -/
def c3sixContent : List Char :=
  lchars ("\x7b\"i\": 1\x7d\n\x7b\"i\": 2\x7d\n\x7b\"i\": 3\x7d\n\x7b\"i\": 4\x7d\n\x7b\"i\": 5\x7d\n\x7b\"i\": 6\x7d\n")

/-- The last three records of `c3sixContent`. -/
def c3sixLastThree : List JVal :=
  [JVal.obj [(lchars ("i"), JVal.num ⟨4, 1⟩)],
   JVal.obj [(lchars ("i"), JVal.num ⟨5, 1⟩)],
   JVal.obj [(lchars ("i"), JVal.num ⟨6, 1⟩)]]

/-- A log consisting of a single malformed line (so the built summary is
empty). -/
def c9content : List Char := lchars ("notjson\n")

/-- A log with one complete, valid record line, for the relay. -/
def c5content : List Char := lchars ("\x7b\"loss_pct\": 45\x7d\n")

/-- A populated cache that the rotation check must discard (its inode, 7,
differs from the new file below). -/
def c6oldCache : CacheState :=
  { dailyState := [(lchars ("2024-05-31"),
      { initDayState with totalProbes := 4, downProbes := 4 })]
    summary := [summaryRow (lchars ("2024-05-31"))
      { initDayState with totalProbes := 4, downProbes := 4 }]
    position := 120, inode := some 7, size := 120 }

/-- The replacement log file (different inode, shorter). -/
def c6newFv : FileView := ⟨c5content, 8⟩

/-- The build result over the example log (defaulting never fires: the
build succeeds). -/
def exRunResult : BuildResult :=
  exRun.getD ⟨initialCache, [], false⟩

/-- A second build over the unchanged example log, from the first build's
cache. -/
def exRun2 : Option BuildResult :=
  buildDailySummaryFromFile exRunResult.cache (some exFv)

/-- The second build's result. -/
def exRun2Result : BuildResult :=
  exRun2.getD ⟨initialCache, [], false⟩

/-- First build over the malformed-only log `c9content` (inode 2). -/
def c9run1 : Option BuildResult :=
  buildDailySummaryFromFile initialCache (some ⟨c9content, 2⟩)

/-- Its result. -/
def c9run1Result : BuildResult :=
  c9run1.getD ⟨initialCache, [], false⟩

/-- Second build over the unchanged `c9content`. -/
def c9run2 : Option BuildResult :=
  buildDailySummaryFromFile c9run1Result.cache (some ⟨c9content, 2⟩)

/-- Two single-record batches appended across two `get_snapshot()` calls,
for the incremental-equals-batch witness. -/
def c4chunks : List (List (List Char)) :=
  [[lchars ("\x7b\"timestamp\": \"2024-06-01T00:00:00Z\", \"loss_pct\": 0\x7d")],
   [lchars ("\x7b\"timestamp\": \"2024-06-02T05:00:00Z\", \"loss_pct\": 100\x7d")]]

/-! # Theorems

First a stock of helper lemmas about the embedded functions, then one
theorem per claim (with witness or counterexample theorems as required). -/

/-- The relay loop never changes `_last_size`: the slot would first be
written at `handle.tell()`, which raises before any assignment happens. -/
lemma relayConsume_fst (n : ℕ) (out : List RelayMsg) (ls : List (List Char)) :
    (relayConsume n out ls).1 = n := by
  induction ls with
  | nil => rfl
  | cons l rest ih =>
    by_cases h : (stripChars l).isEmpty
    · simpa [relayConsume, h] using ih
    · simp [relayConsume, h, tellDuringIteration]

/-- The relay loop never emits a message: the `OSError` from
`handle.tell()` aborts every iteration that reaches a non-blank line. -/
lemma relayConsume_snd (n : ℕ) (out : List RelayMsg) (ls : List (List Char)) :
    (relayConsume n out ls).2.1 = out := by
  induction ls with
  | nil => rfl
  | cons l rest ih =>
    by_cases h : (stripChars l).isEmpty
    · simpa [relayConsume, h] using ih
    · simp [relayConsume, h, tellDuringIteration]

/-- C5.  The claim says each new complete line is published raw, publish
failures are swallowed while the saved offset still advances past the
line.  In fact `MqttPublisher.run` assigns `self._last_size = handle.tell()`
inside the active text-mode line iteration, where `TextIOWrapper.tell`
raises `OSError`; the broad `except Exception` catches it, so the relay
publishes nothing at all and its cursor never advances — concretely on a
one-record log, and in general on every poll. -/
theorem c5_relay_never_publishes :
    relayPoll ⟨0, some 3⟩ (some ⟨c5content, 3⟩) = (⟨0, some 3⟩, [])
  ∧ (∀ (st : RelayState) (file : Option FileView),
      (relayPoll st file).2 = [] ∧ (relayPoll st file).1.lastSize ≤ st.lastSize) := by
  constructor
  · rfl
  · intro st file
    cases file with
    | none => exact ⟨rfl, Nat.le_refl _⟩
    | some fv =>
      unfold relayPoll
      constructor
      · simp [relayConsume_snd]
      · simp only [relayConsume_fst]
        split
        · exact Nat.zero_le _
        · exact Nat.le_refl _

/-- C6.  If the inode changed or the file shrank below the cached size,
`build_daily_summary_from_file` resets the whole cache before rebuilding,
so the call behaves exactly as a call on a fresh, empty cache: nothing of
the old per-day state survives into the returned snapshot. -/
theorem c6_rotation_resets_everything :
    ∀ (cache : CacheState) (fv : FileView),
      cache.inode ≠ some fv.inode ∨ fv.content.length < cache.size →
      buildDailySummaryFromFile cache (some fv) =
        buildDailySummaryFromFile initialCache (some fv) := by
  intro cache fv h
  have h1 : rotationChecked cache fv = initialCache := by
    unfold rotationChecked
    rcases h with h | h
    · rw [if_pos]
      simp [h]
    · rw [if_pos]
      simp [h]
  have h2 : rotationChecked initialCache fv = initialCache := by
    unfold rotationChecked
    rfl
  simp only [buildDailySummaryFromFile]
  rw [h1, h2]

/-- C6 witness: a populated cache with inode 7 against a shorter file with
inode 8; the rebuild coincides with a fresh one. -/
theorem c6_witness :
    (c6oldCache.inode ≠ some c6newFv.inode ∨
      c6newFv.content.length < c6oldCache.size)
  ∧ buildDailySummaryFromFile c6oldCache (some c6newFv) =
      buildDailySummaryFromFile initialCache (some c6newFv) :=
  ⟨Or.inl (by decide),
   c6_rotation_resets_everything c6oldCache c6newFv (Or.inl (by decide))⟩

/-- C2 counterexample.  The claim says an absent `loss_pct` yields
`internet_up = null`.  In the source, `internet_up = loss is not None and
float(loss) < 100` short-circuits to `False` when `record.get("loss_pct")`
is `None`, and `float` is never called, so no exception maps it to `None`:
the published value is `false`, not `null`. -/
theorem c2_counterexample :
    internetUpOfFields [] = some false
  ∧ some false ≠ (none : Option Bool) :=
  ⟨rfl, by decide⟩

/-- C2 as amended: for a numeric `loss_pct` (value `q`), `internet_up` is
`q < 100`; when `loss_pct` is absent (or JSON null) it is `false`; it is
`null` exactly when `loss_pct` is present but `float()` raises on it. -/
theorem c2_amended_internet_up :
    ∀ (fields : List (List Char × JVal)) (q : PyQ),
      (pyDictGet fields (lchars ("loss_pct")) = JVal.null →
        internetUpOfFields fields = some false)
    ∧ (pyDictGet fields (lchars ("loss_pct")) = JVal.num q →
        internetUpOfFields fields = some (q.qlt (PyQ.ofInt 100)))
    ∧ (pyDictGet fields (lchars ("loss_pct")) ≠ JVal.null →
        pyFloat (pyDictGet fields (lchars ("loss_pct"))) = none →
        internetUpOfFields fields = none) := by
  intro fields q
  refine ⟨?_, ?_, ?_⟩
  · intro h
    unfold internetUpOfFields
    rw [h]
  · intro h
    unfold internetUpOfFields
    rw [h]
    rfl
  · intro hne hf
    unfold internetUpOfFields
    cases hv : pyDictGet fields (lchars ("loss_pct")) with
    | null => exact absurd hv hne
    | bool b => rw [hv] at hf; simp [pyFloat] at hf
    | num q2 => rw [hv] at hf; simp [pyFloat] at hf
    | str s => rw [hv] at hf; simp [pyFloat] at hf; simp [pyFloat, hf]
    | arr xs => rfl
    | obj kvs => rfl

/-- C2 witness: `loss_pct = 45` gives `internet_up = true`, `loss_pct =
100` gives `false`, a non-convertible string gives `null`. -/
theorem c2_witness :
    internetUpOfFields [(lchars ("loss_pct"), JVal.num ⟨45, 1⟩)] = some true
  ∧ internetUpOfFields [(lchars ("loss_pct"), JVal.num ⟨100, 1⟩)] = some false
  ∧ internetUpOfFields [(lchars ("loss_pct"), JVal.str (lchars ("abc")))] = none :=
  ⟨(c2_amended_internet_up [(lchars ("loss_pct"), JVal.num ⟨45, 1⟩)] ⟨45, 1⟩).2.1 rfl,
   (c2_amended_internet_up [(lchars ("loss_pct"), JVal.num ⟨100, 1⟩)] ⟨100, 1⟩).2.1 rfl,
   (c2_amended_internet_up [(lchars ("loss_pct"), JVal.str (lchars ("abc")))]
     ⟨0, 1⟩).2.2 (fun h => JVal.noConfusion h) rfl⟩

/-- C3 counterexample.  The claim says malformed lines are not counted
toward `n`.  `read_recent_records` slices `lines[-n:]` before dropping
malformed lines, so on a log whose two lines are one valid record followed
by one malformed line, `tail(1)` returns nothing even though one valid
record exists among the file's lines. -/
theorem c3_counterexample :
    readRecentRecords 1 (some c3content) = []
  ∧ ((pyLines c3content).filterMap (fun l =>
      let line := stripChars l
      if line.isEmpty then none else jsonLoads line)).length = 1 :=
  ⟨rfl, rfl⟩

/-- C3 as amended: `tail(n)` (for the module's positive `MAX_RECORDS`)
returns the valid records among the last `n` physical lines of the file,
in file order — blank and malformed lines count toward the window of `n` —
so at most `n` records come back, and on a log of six valid lines `tail(3)`
returns exactly the last three in order. -/
theorem c3_amended_tail_window (n : ℕ) (content : List Char) (hn : 0 < n) :
    readRecentRecords n (some content) =
      ((pyLines content).drop ((pyLines content).length - n)).filterMap
        (fun l =>
          let line := stripChars l
          if line.isEmpty then none else jsonLoads line)
  ∧ (readRecentRecords n (some content)).length ≤ n
  ∧ readRecentRecords 3 (some c3sixContent) = c3sixLastThree := by
  have hmain : readRecentRecords n (some content) =
      ((pyLines content).drop ((pyLines content).length - n)).filterMap
        (fun l =>
          let line := stripChars l
          if line.isEmpty then none else jsonLoads line) := by
    simp only [readRecentRecords, pySliceLast]
    rw [if_neg (Nat.pos_iff_ne_zero.mp hn)]
  refine ⟨hmain, ?_, rfl⟩
  rw [hmain]
  calc (((pyLines content).drop ((pyLines content).length - n)).filterMap
          (fun l =>
            let line := stripChars l
            if line.isEmpty then none else jsonLoads line)).length
      ≤ ((pyLines content).drop ((pyLines content).length - n)).length :=
        List.length_filterMap_le _ _
    _ ≤ n := by
        rw [List.length_drop]
        omega

/-- C3 witness: the amended window bound at `n = 1` on the two-line log. -/
theorem c3_witness :
    (0 < 1) ∧ (readRecentRecords 1 (some c3content)).length ≤ 1 :=
  ⟨by decide, (c3_amended_tail_window 1 c3content (by decide)).2.1⟩

/-- C1 counterexample.  The claim says neither tailer's stored offset may
pass the last newline, and a trailing unterminated line is never consumed.
On a 38-character log whose last newline ends at offset 2 and whose
trailing, newline-less line is a valid record, one summary poll stores
position 38 (`f.tell()` after the line iterator — which does yield the
unterminated line — reaches end of file) and the trailing record is merged
into the per-day state. -/
theorem c1_counterexample :
    (c1run.map (fun r => r.cache.position)) = some 38
  ∧ offsetAfterLastNewline c1content = 2
  ∧ c1content.length = 38
  ∧ (c1run.map (fun r => r.rows.map (fun s => (s.date, s.totalProbes)))) =
      some [(lchars ("2024-06-02"), 1)] :=
  ⟨rfl, rfl, rfl, rfl⟩

/-- C1 as amended: on every poll of an existing file the summary cache's
stored offset becomes `max position length` — the end of the file, past a
trailing unterminated line, which is consumed in that same poll — while the
relay's stored offset never advances at all, because its per-line
`handle.tell()` raises (cf. C5). -/
theorem c1_amended_offset_to_eof :
    (∀ (cache : CacheState) (fv : FileView) (res : BuildResult),
      buildDailySummaryFromFile cache (some fv) = some res →
      res.cache.position = max (rotationChecked cache fv).position fv.content.length)
  ∧ (∀ (st : RelayState) (file : Option FileView),
      (relayPoll st file).1.lastSize ≤ st.lastSize) := by
  constructor
  · intro cache fv res h
    simp only [buildDailySummaryFromFile] at h
    split at h
    case isTrue hcond =>
      cases h
      simp only [Bool.and_eq_true, decide_eq_true_eq] at hcond
      rw [hcond.1.2]
      exact (Nat.max_self _).symm
    case isFalse hcond =>
      cases hp : processLines (rotationChecked cache fv).dailyState
          (pyLines (fv.content.drop (rotationChecked cache fv).position)) with
      | none => rw [hp] at h; exact absurd h (by simp)
      | some daily =>
        rw [hp] at h
        cases h
        rfl
  · intro st file
    cases file with
    | none => exact Nat.le_refl _
    | some fv =>
      unfold relayPoll
      simp only [relayConsume_fst]
      split
      · exact Nat.zero_le _
      · exact Nat.le_refl _

/-- C1 witness: the amended offset law evaluated on the example log from a
fresh cache — the stored position is the file length. -/
theorem c1_witness :
    buildDailySummaryFromFile initialCache (some exFv) = some exRunResult
  ∧ exRunResult.cache.position =
      max (rotationChecked initialCache exFv).position exFv.content.length :=
  ⟨rfl, c1_amended_offset_to_eof.1 initialCache exFv exRunResult rfl⟩

/-- The sent/received stage touches only `total_sent`/`total_received`. -/
lemma applySentRecv_probes (f : List (List Char × JVal)) (d : DayState) :
    (applySentRecv f d).totalProbes = d.totalProbes
  ∧ (applySentRecv f d).goodProbes = d.goodProbes
  ∧ (applySentRecv f d).degradedProbes = d.degradedProbes
  ∧ (applySentRecv f d).downProbes = d.downProbes
  ∧ (applySentRecv f d).lossSum = d.lossSum
  ∧ (applySentRecv f d).lossCount = d.lossCount
  ∧ (applySentRecv f d).rttSum = d.rttSum
  ∧ (applySentRecv f d).rttCount = d.rttCount
  ∧ (applySentRecv f d).rttMin = d.rttMin
  ∧ (applySentRecv f d).rttMax = d.rttMax := by
  simp only [applySentRecv]
  refine ⟨?_, ?_, ?_, ?_, ?_, ?_, ?_, ?_, ?_, ?_⟩ <;> (repeat' split) <;> simp

/-- The loss stage never touches the probe total or the RTT aggregates. -/
lemma applyLoss_other (f : List (List Char × JVal)) (d : DayState) :
    (applyLoss f d).totalProbes = d.totalProbes
  ∧ (applyLoss f d).rttSum = d.rttSum
  ∧ (applyLoss f d).rttCount = d.rttCount
  ∧ (applyLoss f d).rttMin = d.rttMin
  ∧ (applyLoss f d).rttMax = d.rttMax := by
  simp only [applyLoss]
  refine ⟨?_, ?_, ?_, ?_, ?_⟩ <;> (repeat' split) <;> simp

/-- The RTT stage touches only the four RTT aggregates. -/
lemma applyRtt_probes (f : List (List Char × JVal)) (d : DayState) :
    (applyRtt f d).totalProbes = d.totalProbes
  ∧ (applyRtt f d).goodProbes = d.goodProbes
  ∧ (applyRtt f d).degradedProbes = d.degradedProbes
  ∧ (applyRtt f d).downProbes = d.downProbes
  ∧ (applyRtt f d).lossSum = d.lossSum
  ∧ (applyRtt f d).lossCount = d.lossCount := by
  simp only [applyRtt]
  refine ⟨?_, ?_, ?_, ?_, ?_, ?_⟩ <;> (repeat' split) <;> simp

/-- The set stage touches only the target/IP sets. -/
lemma applySets_probes (f : List (List Char × JVal)) (d : DayState) :
    (applySets f d).totalProbes = d.totalProbes
  ∧ (applySets f d).goodProbes = d.goodProbes
  ∧ (applySets f d).degradedProbes = d.degradedProbes
  ∧ (applySets f d).downProbes = d.downProbes
  ∧ (applySets f d).lossSum = d.lossSum
  ∧ (applySets f d).lossCount = d.lossCount
  ∧ (applySets f d).rttSum = d.rttSum
  ∧ (applySets f d).rttCount = d.rttCount
  ∧ (applySets f d).rttMin = d.rttMin
  ∧ (applySets f d).rttMax = d.rttMax := by
  simp only [applySets]
  refine ⟨?_, ?_, ?_, ?_, ?_, ?_, ?_, ?_, ?_, ?_⟩ <;> (repeat' split) <;> simp

/-- Loss stage, non-numeric `loss_pct`: a no-op. -/
lemma applyLoss_not_num (f : List (List Char × JVal)) (d : DayState)
    (h : pyIsNumber (pyDictGet f (lchars ("loss_pct"))) = false) :
    applyLoss f d = d := by
  simp only [applyLoss]
  simp [h]

/-- Loss stage, numeric `loss_pct` equal to 0. -/
lemma applyLoss_num_good (f : List (List Char × JVal)) (d : DayState)
    (h : pyIsNumber (pyDictGet f (lchars ("loss_pct"))) = true)
    (h0 : (pyNumVal (pyDictGet f (lchars ("loss_pct")))).qeq (PyQ.ofInt 0) = true) :
    applyLoss f d =
      { d with lossSum := d.lossSum.add (pyNumVal (pyDictGet f (lchars ("loss_pct"))))
               lossCount := d.lossCount + 1
               goodProbes := d.goodProbes + 1 } := by
  simp only [applyLoss]
  simp [h, h0]

/-- Loss stage, numeric `loss_pct` equal to 100 (and not 0). -/
lemma applyLoss_num_down (f : List (List Char × JVal)) (d : DayState)
    (h : pyIsNumber (pyDictGet f (lchars ("loss_pct"))) = true)
    (h0 : (pyNumVal (pyDictGet f (lchars ("loss_pct")))).qeq (PyQ.ofInt 0) = false)
    (h100 : (pyNumVal (pyDictGet f (lchars ("loss_pct")))).qeq (PyQ.ofInt 100) = true) :
    applyLoss f d =
      { d with lossSum := d.lossSum.add (pyNumVal (pyDictGet f (lchars ("loss_pct"))))
               lossCount := d.lossCount + 1
               downProbes := d.downProbes + 1 } := by
  simp only [applyLoss]
  simp [h, h0, h100]

/-- Loss stage, numeric `loss_pct` equal to neither 0 nor 100. -/
lemma applyLoss_num_degraded (f : List (List Char × JVal)) (d : DayState)
    (h : pyIsNumber (pyDictGet f (lchars ("loss_pct"))) = true)
    (h0 : (pyNumVal (pyDictGet f (lchars ("loss_pct")))).qeq (PyQ.ofInt 0) = false)
    (h100 : (pyNumVal (pyDictGet f (lchars ("loss_pct")))).qeq (PyQ.ofInt 100) = false) :
    applyLoss f d =
      { d with lossSum := d.lossSum.add (pyNumVal (pyDictGet f (lchars ("loss_pct"))))
               lossCount := d.lossCount + 1
               degradedProbes := d.degradedProbes + 1 } := by
  simp only [applyLoss]
  simp [h, h0, h100]

/-- RTT stage when `float(rtt_avg_ms)` raises: a no-op. -/
lemma applyRtt_none (f : List (List Char × JVal)) (d : DayState)
    (h : pyFloat (pyDictGet f (lchars ("rtt_avg_ms"))) = none) :
    applyRtt f d = d := by
  simp only [applyRtt]
  rw [h]

/-- RTT stage when `float(rtt_avg_ms)` yields `q`: sum/count accumulate and
the running min/max absorb `q` (seeding from `none`). -/
lemma applyRtt_some (f : List (List Char × JVal)) (d : DayState) (q : PyQ)
    (h : pyFloat (pyDictGet f (lchars ("rtt_avg_ms"))) = some q) :
    (applyRtt f d).rttSum = d.rttSum.add q
  ∧ (applyRtt f d).rttCount = d.rttCount + 1
  ∧ (applyRtt f d).rttMin =
      (match d.rttMin with
       | none => some q
       | some m => if q.qlt m then some q else some m)
  ∧ (applyRtt f d).rttMax =
      (match d.rttMax with
       | none => some q
       | some m => if m.qlt q then some q else some m) := by
  simp only [applyRtt]
  rw [h]
  refine ⟨?_, ?_, ?_, ?_⟩ <;> (repeat' split) <;> simp_all

/-- Rendered uptime for a day with at least one probe. -/
lemma summaryRow_uptime (day : List Char) (d : DayState)
    (h : 0 < d.totalProbes) :
    (summaryRow day d).uptimePct =
      ((PyQ.ofInt 100).mul
        (PyQ.ofInt ((d.totalProbes : ℤ) - (d.downProbes : ℤ)))).div
        (PyQ.ofNat d.totalProbes) := by
  simp [summaryRow, h]

/-- Rendered RTT average with at least one RTT sample. -/
lemma summaryRow_avgRtt_pos (day : List Char) (d : DayState)
    (h : 0 < d.rttCount) :
    (summaryRow day d).avgRttMs = some (d.rttSum.div (PyQ.ofNat d.rttCount)) := by
  simp [summaryRow, h]

/-- Rendered RTT average with no RTT sample: null, never 0. -/
lemma summaryRow_avgRtt_zero (day : List Char) (d : DayState)
    (h : d.rttCount = 0) :
    (summaryRow day d).avgRttMs = none := by
  simp [summaryRow, h]

/-- C7.  Classification of one merged record by its `loss_pct`: a numeric
0 increments `good`, a numeric 100 increments `down`, any other numeric
value increments `degraded`; a non-numeric `loss_pct` (in the sense of
`isinstance(loss, (int, float))`) leaves every classification bucket and
the loss sum/count untouched while `total_probes` still increments;
`uptime_pct = 100 * (total - down) / total`; and the 0/50/100 same-day
example yields `total=3, good=1, degraded=1, down=1, uptime = 200/3`. -/
theorem c7_loss_classification_counters :
    (∀ (d : DayState) (fields : List (List Char × JVal)),
      (mergeFields d fields).totalProbes = d.totalProbes + 1
      ∧ (pyIsNumber (pyDictGet fields (lchars ("loss_pct"))) = true →
          (pyNumVal (pyDictGet fields (lchars ("loss_pct")))).qeq (PyQ.ofInt 0) = true →
          (mergeFields d fields).goodProbes = d.goodProbes + 1
          ∧ (mergeFields d fields).downProbes = d.downProbes
          ∧ (mergeFields d fields).degradedProbes = d.degradedProbes)
      ∧ (pyIsNumber (pyDictGet fields (lchars ("loss_pct"))) = true →
          (pyNumVal (pyDictGet fields (lchars ("loss_pct")))).qeq (PyQ.ofInt 0) = false →
          (pyNumVal (pyDictGet fields (lchars ("loss_pct")))).qeq (PyQ.ofInt 100) = true →
          (mergeFields d fields).downProbes = d.downProbes + 1
          ∧ (mergeFields d fields).goodProbes = d.goodProbes
          ∧ (mergeFields d fields).degradedProbes = d.degradedProbes)
      ∧ (pyIsNumber (pyDictGet fields (lchars ("loss_pct"))) = true →
          (pyNumVal (pyDictGet fields (lchars ("loss_pct")))).qeq (PyQ.ofInt 0) = false →
          (pyNumVal (pyDictGet fields (lchars ("loss_pct")))).qeq (PyQ.ofInt 100) = false →
          (mergeFields d fields).degradedProbes = d.degradedProbes + 1
          ∧ (mergeFields d fields).goodProbes = d.goodProbes
          ∧ (mergeFields d fields).downProbes = d.downProbes)
      ∧ (pyIsNumber (pyDictGet fields (lchars ("loss_pct"))) = false →
          (mergeFields d fields).goodProbes = d.goodProbes
          ∧ (mergeFields d fields).downProbes = d.downProbes
          ∧ (mergeFields d fields).degradedProbes = d.degradedProbes
          ∧ (mergeFields d fields).lossSum = d.lossSum
          ∧ (mergeFields d fields).lossCount = d.lossCount))
  ∧ (∀ (day : List Char) (d : DayState), 0 < d.totalProbes →
      (summaryRow day d).uptimePct =
        ((PyQ.ofInt 100).mul
          (PyQ.ofInt ((d.totalProbes : ℤ) - (d.downProbes : ℤ)))).div
          (PyQ.ofNat d.totalProbes))
  ∧ (exRun.map (fun r => r.rows.map (fun s =>
      (s.totalProbes, s.goodProbes, s.degradedProbes, s.downProbes)))) =
      some [(3, 1, 1, 1)]
  ∧ (exRun.map (fun r => r.rows.map (fun s => s.uptimePct.qeq ⟨200, 3⟩))) =
      some [true] := by
  refine ⟨?_, summaryRow_uptime, rfl, rfl⟩
  intro d fields
  refine ⟨?_, ?_, ?_, ?_, ?_⟩
  · simp [mergeFields, applySets_probes, applyRtt_probes, applyLoss_other,
      applySentRecv_probes, bumpTotalProbes]
  · intro hn h0
    simp only [mergeFields, applySets_probes, applyRtt_probes]
    rw [applyLoss_num_good _ _ hn h0]
    simp [applySentRecv_probes, bumpTotalProbes]
  · intro hn h0 h100
    simp only [mergeFields, applySets_probes, applyRtt_probes]
    rw [applyLoss_num_down _ _ hn h0 h100]
    simp [applySentRecv_probes, bumpTotalProbes]
  · intro hn h0 h100
    simp only [mergeFields, applySets_probes, applyRtt_probes]
    rw [applyLoss_num_degraded _ _ hn h0 h100]
    simp [applySentRecv_probes, bumpTotalProbes]
  · intro hn
    simp only [mergeFields, applySets_probes, applyRtt_probes]
    rw [applyLoss_not_num _ _ hn]
    simp [applySentRecv_probes, bumpTotalProbes]

/-- C7 witness: a record with numeric loss 50 increments `degraded`, and
the rendered uptime of a 3-probe day with 1 down probe uses the formula. -/
theorem c7_witness :
    (mergeFields initDayState [(lchars ("loss_pct"), JVal.num ⟨50, 1⟩)]).degradedProbes =
      initDayState.degradedProbes + 1
  ∧ (summaryRow (lchars ("2024-06-01"))
      { initDayState with totalProbes := 3, downProbes := 1 }).uptimePct =
      ((PyQ.ofInt 100).mul (PyQ.ofInt ((3 : ℤ) - (1 : ℤ)))).div (PyQ.ofNat 3) :=
  ⟨((c7_loss_classification_counters.1 initDayState
      [(lchars ("loss_pct"), JVal.num ⟨50, 1⟩)]).2.2.2.1
      (by decide) (by decide) (by decide)).1,
   c7_loss_classification_counters.2.1 (lchars ("2024-06-01"))
     { initDayState with totalProbes := 3, downProbes := 1 } (by decide)⟩

/-- C8.  RTT aggregation counts exactly the records whose `rtt_avg_ms`
converts via `float()`: each such value is added to the day's RTT sum and
count and absorbed by the running min/max (seeding from the first value);
non-converting values change none of the four; the rendered average is
sum/count, and null — never 0 — when the count is zero; and the example
12.5/absent/18.1 gives average 15.3, min 12.5, max 18.1 over a count of 2. -/
theorem c8_rtt_aggregation :
    (∀ (d : DayState) (fields : List (List Char × JVal)) (q : PyQ),
      pyFloat (pyDictGet fields (lchars ("rtt_avg_ms"))) = some q →
        (mergeFields d fields).rttSum = d.rttSum.add q
      ∧ (mergeFields d fields).rttCount = d.rttCount + 1
      ∧ (d.rttMin = none → (mergeFields d fields).rttMin = some q)
      ∧ (∀ m, d.rttMin = some m →
          (mergeFields d fields).rttMin = some (if q.qlt m then q else m))
      ∧ (d.rttMax = none → (mergeFields d fields).rttMax = some q)
      ∧ (∀ m, d.rttMax = some m →
          (mergeFields d fields).rttMax = some (if m.qlt q then q else m)))
  ∧ (∀ (d : DayState) (fields : List (List Char × JVal)),
      pyFloat (pyDictGet fields (lchars ("rtt_avg_ms"))) = none →
        (mergeFields d fields).rttSum = d.rttSum
      ∧ (mergeFields d fields).rttCount = d.rttCount
      ∧ (mergeFields d fields).rttMin = d.rttMin
      ∧ (mergeFields d fields).rttMax = d.rttMax)
  ∧ (∀ (day : List Char) (d : DayState),
      (0 < d.rttCount →
        (summaryRow day d).avgRttMs = some (d.rttSum.div (PyQ.ofNat d.rttCount)))
    ∧ (d.rttCount = 0 → (summaryRow day d).avgRttMs = none))
  ∧ (exRun.map (fun r => r.rows.map (fun s =>
      s.avgRttMs.map (fun v => v.qeq ⟨153, 10⟩)))) = some [some true]
  ∧ (exRun.map (fun r => r.rows.map (fun s => (s.minRttMs, s.maxRttMs)))) =
      some [(some ⟨125, 10⟩, some ⟨181, 10⟩)]
  ∧ (exRun.map (fun r => r.cache.dailyState.map (fun kv => kv.2.rttCount))) =
      some [2] := by
  refine ⟨?_, ?_, ?_, rfl, rfl, rfl⟩
  · intro d fields q h
    have hx : (applyLoss fields (applySentRecv fields (bumpTotalProbes d))).rttSum = d.rttSum
        ∧ (applyLoss fields (applySentRecv fields (bumpTotalProbes d))).rttCount = d.rttCount
        ∧ (applyLoss fields (applySentRecv fields (bumpTotalProbes d))).rttMin = d.rttMin
        ∧ (applyLoss fields (applySentRecv fields (bumpTotalProbes d))).rttMax = d.rttMax := by
      simp [applyLoss_other, applySentRecv_probes, bumpTotalProbes]
    have ha := applyRtt_some fields
      (applyLoss fields (applySentRecv fields (bumpTotalProbes d))) q h
    refine ⟨?_, ?_, ?_, ?_, ?_, ?_⟩
    · simp only [mergeFields, applySets_probes]
      rw [ha.1, hx.1]
    · simp only [mergeFields, applySets_probes]
      rw [ha.2.1, hx.2.1]
    · intro hmin
      simp only [mergeFields, applySets_probes]
      rw [ha.2.2.1, hx.2.2.1, hmin]
    · intro m hmin
      simp only [mergeFields, applySets_probes]
      rw [ha.2.2.1, hx.2.2.1, hmin]
      cases hq : q.qlt m <;> simp [hq]
    · intro hmax
      simp only [mergeFields, applySets_probes]
      rw [ha.2.2.2, hx.2.2.2, hmax]
    · intro m hmax
      simp only [mergeFields, applySets_probes]
      rw [ha.2.2.2, hx.2.2.2, hmax]
      cases hq : m.qlt q <;> simp [hq]
  · intro d fields h
    simp only [mergeFields, applySets_probes]
    rw [applyRtt_none _ _ h]
    simp [applyLoss_other, applySentRecv_probes, bumpTotalProbes]
  · intro day d
    exact ⟨summaryRow_avgRtt_pos day d, summaryRow_avgRtt_zero day d⟩

/-- C8 witness: merging `rtt_avg_ms = 12.5` into a fresh day seeds sum,
count and min. -/
theorem c8_witness :
    (mergeFields initDayState [(lchars ("rtt_avg_ms"), JVal.num ⟨125, 10⟩)]).rttCount =
      initDayState.rttCount + 1
  ∧ (mergeFields initDayState [(lchars ("rtt_avg_ms"), JVal.num ⟨125, 10⟩)]).rttMin =
      some ⟨125, 10⟩ :=
  ⟨((c8_rtt_aggregation.1 initDayState
      [(lchars ("rtt_avg_ms"), JVal.num ⟨125, 10⟩)] ⟨125, 10⟩ rfl)).2.1,
   ((c8_rtt_aggregation.1 initDayState
      [(lchars ("rtt_avg_ms"), JVal.num ⟨125, 10⟩)] ⟨125, 10⟩ rfl)).2.2.1 rfl⟩

/-- C10.  No range validation of `loss_pct`: a numeric value outside
0–100 (e.g. 150 or -5; denominators from the decoder are positive) is
still accumulated into the loss sum/count, classified as degraded (it
equals neither 0 nor 100), and leaves `down_probes` unchanged, so the
record counts as up in `uptime_pct = 100*(total-down)/total`. -/
theorem c10_out_of_range_loss :
    ∀ (d : DayState) (fields : List (List Char × JVal)) (q : PyQ),
      pyDictGet fields (lchars ("loss_pct")) = JVal.num q →
      0 < q.den →
      (q.qlt (PyQ.ofInt 0) = true ∨ (PyQ.ofInt 100).qlt q = true) →
        (mergeFields d fields).degradedProbes = d.degradedProbes + 1
      ∧ (mergeFields d fields).lossSum = d.lossSum.add q
      ∧ (mergeFields d fields).lossCount = d.lossCount + 1
      ∧ (mergeFields d fields).downProbes = d.downProbes
      ∧ (mergeFields d fields).goodProbes = d.goodProbes
      ∧ (mergeFields d fields).totalProbes = d.totalProbes + 1
      ∧ (∀ day, (summaryRow day (mergeFields d fields)).uptimePct =
          ((PyQ.ofInt 100).mul
            (PyQ.ofInt (((d.totalProbes : ℤ) + 1) - (d.downProbes : ℤ)))).div
            (PyQ.ofNat (d.totalProbes + 1))) := by
  intro d fields q hget hden hout
  have hn : pyIsNumber (pyDictGet fields (lchars ("loss_pct"))) = true := by
    rw [hget]; rfl
  have hnv : pyNumVal (pyDictGet fields (lchars ("loss_pct"))) = q := by
    rw [hget]
    rfl
  have hnum : q.num < 0 ∨ 100 * q.den < q.num := by
    rcases hout with hlt | hlt
    · left
      simpa [PyQ.qlt, PyQ.ofInt] using hlt
    · right
      simpa [PyQ.qlt, PyQ.ofInt] using hlt
  have hpos : (0 : ℤ) < 100 * q.den := by positivity
  have h0 : (pyNumVal (pyDictGet fields (lchars ("loss_pct")))).qeq (PyQ.ofInt 0) = false := by
    rw [hnv]
    simp only [PyQ.qeq, PyQ.ofInt]
    simp only [beq_eq_false_iff_ne, ne_eq]
    omega
  have h100 : (pyNumVal (pyDictGet fields (lchars ("loss_pct")))).qeq (PyQ.ofInt 100) = false := by
    rw [hnv]
    simp only [PyQ.qeq, PyQ.ofInt]
    simp only [beq_eq_false_iff_ne, ne_eq]
    omega
  have hloss := applyLoss_num_degraded fields
    (applySentRecv fields (bumpTotalProbes d)) hn h0 h100
  have hdeg : (mergeFields d fields).degradedProbes = d.degradedProbes + 1 := by
    simp only [mergeFields, applySets_probes, applyRtt_probes]
    rw [hloss]
    simp [applySentRecv_probes, bumpTotalProbes]
  have hsum : (mergeFields d fields).lossSum = d.lossSum.add q := by
    simp only [mergeFields, applySets_probes, applyRtt_probes]
    rw [hloss]
    simp [applySentRecv_probes, bumpTotalProbes, hnv]
  have hcount : (mergeFields d fields).lossCount = d.lossCount + 1 := by
    simp only [mergeFields, applySets_probes, applyRtt_probes]
    rw [hloss]
    simp [applySentRecv_probes, bumpTotalProbes]
  have hdown : (mergeFields d fields).downProbes = d.downProbes := by
    simp only [mergeFields, applySets_probes, applyRtt_probes]
    rw [hloss]
    simp [applySentRecv_probes, bumpTotalProbes]
  have hgood : (mergeFields d fields).goodProbes = d.goodProbes := by
    simp only [mergeFields, applySets_probes, applyRtt_probes]
    rw [hloss]
    simp [applySentRecv_probes, bumpTotalProbes]
  have htot : (mergeFields d fields).totalProbes = d.totalProbes + 1 := by
    simp [mergeFields, applySets_probes, applyRtt_probes, applyLoss_other,
      applySentRecv_probes, bumpTotalProbes]
  refine ⟨hdeg, hsum, hcount, hdown, hgood, htot, ?_⟩
  intro day
  rw [summaryRow_uptime day _ (by rw [htot]; exact Nat.succ_pos _), htot, hdown]
  push_cast
  ring_nf

/-- C10 witness: `loss_pct = 150` on a fresh day state — degraded
increments, down does not. -/
theorem c10_witness :
    (mergeFields initDayState [(lchars ("loss_pct"), JVal.num ⟨150, 1⟩)]).degradedProbes =
      initDayState.degradedProbes + 1
  ∧ (mergeFields initDayState [(lchars ("loss_pct"), JVal.num ⟨150, 1⟩)]).downProbes =
      initDayState.downProbes :=
  ⟨(c10_out_of_range_loss initDayState
      [(lchars ("loss_pct"), JVal.num ⟨150, 1⟩)] ⟨150, 1⟩ rfl (by decide)
      (Or.inr (by decide))).1,
   (c10_out_of_range_loss initDayState
      [(lchars ("loss_pct"), JVal.num ⟨150, 1⟩)] ⟨150, 1⟩ rfl (by decide)
      (Or.inr (by decide))).2.2.2.1⟩

/-- The rotation check either resets or keeps a cache that already passes
the check. -/
lemma rotationChecked_eq_or (cache : CacheState) (fv : FileView) :
    rotationChecked cache fv = initialCache
  ∨ (rotationChecked cache fv = cache ∧ cache.inode = some fv.inode
      ∧ ¬ fv.content.length < cache.size) := by
  unfold rotationChecked
  split
  · left; rfl
  · rename_i h
    simp only [Bool.or_eq_true, decide_eq_true_eq, not_or, ne_eq,
      Decidable.not_not] at h
    exact Or.inr ⟨rfl, h.1, h.2⟩

/-- The rotation check is a no-op on its own output. -/
lemma rotationChecked_fix (cache : CacheState) (fv : FileView) :
    rotationChecked (rotationChecked cache fv) fv = rotationChecked cache fv := by
  rcases rotationChecked_eq_or cache fv with h | ⟨hc, hio, hsz⟩
  · rw [h]
    unfold rotationChecked
    split <;> rfl
  · rw [hc]
    unfold rotationChecked
    rw [if_neg]
    simp [hio, hsz]

/-- C9 counterexample.  The claim says a second call with the file
unchanged performs no re-read.  On a log whose only line is malformed, the
built summary is empty, so the cache-hit test (`... and cache["summary"]`)
fails and the second call opens and reads the file again (returning the
same empty snapshot). -/
theorem c9_counterexample :
    (c9run1.map (fun r => (r.rows, r.openedFile))) = some ([], true)
  ∧ (c9run2.map (fun r => (r.rows, r.openedFile))) = some ([], true) :=
  ⟨rfl, rfl⟩

/-- C9 as amended: with identity, size and contents unchanged, a second
`build_daily_summary_from_file` call always returns the identical snapshot
and leaves the per-day state untouched; it additionally skips re-reading
the file exactly when the first call's snapshot is non-empty (and its
stored position equals the file size, which every reachable cache
satisfies) — with an empty snapshot the file is re-opened, reading zero new
bytes. -/
theorem c9_amended_idempotent :
    ∀ (cache : CacheState) (fv : FileView) (r1 r2 : BuildResult),
      buildDailySummaryFromFile cache (some fv) = some r1 →
      buildDailySummaryFromFile r1.cache (some fv) = some r2 →
      r2.rows = r1.rows
    ∧ r2.cache.dailyState = r1.cache.dailyState
    ∧ (r1.rows ≠ [] → r1.cache.position = fv.content.length →
        r2.openedFile = false ∧ r2.cache = r1.cache) := by
  intro cache fv r1 r2 h1 h2
  simp only [buildDailySummaryFromFile] at h1
  split at h1
  case isTrue hcond1 =>
    cases h1
    simp only [buildDailySummaryFromFile, rotationChecked_fix] at h2
    rw [if_pos hcond1] at h2
    cases h2
    exact ⟨rfl, rfl, fun _ _ => ⟨rfl, rfl⟩⟩
  case isFalse hcond1 =>
    rcases hp : processLines (rotationChecked cache fv).dailyState
        (pyLines (fv.content.drop (rotationChecked cache fv).position)) with _ | daily
    · rw [hp] at h1
      exact absurd h1 (by simp)
    · rw [hp] at h1
      cases h1
      simp only [buildDailySummaryFromFile] at h2
      have hrc : rotationChecked
          ({ dailyState := daily, summary := summariesFromState daily
             position := max (rotationChecked cache fv).position fv.content.length
             inode := some fv.inode, size := fv.content.length } : CacheState) fv =
          { dailyState := daily, summary := summariesFromState daily
            position := max (rotationChecked cache fv).position fv.content.length
            inode := some fv.inode, size := fv.content.length } := by
        unfold rotationChecked
        rw [if_neg]
        simp
      rw [hrc] at h2
      split at h2
      case isTrue hcond2 =>
        cases h2
        exact ⟨rfl, rfl, fun _ _ => ⟨rfl, rfl⟩⟩
      case isFalse hcond2 =>
        have hdrop : fv.content.drop
            (max (rotationChecked cache fv).position fv.content.length) = [] :=
          List.drop_eq_nil_of_le (le_max_right _ _)
        rw [hdrop] at h2
        have hemp : processLines daily (pyLines []) = some daily := rfl
        rw [hemp] at h2
        cases h2
        refine ⟨rfl, rfl, ?_⟩
        intro hne hpos
        exfalso
        apply hcond2
        have hie : (summariesFromState daily).isEmpty = false := by
          simpa [List.isEmpty_iff] using hne
        have hple : (rotationChecked cache fv).position ≤ fv.content.length := by
          have h' : max (rotationChecked cache fv).position fv.content.length =
              fv.content.length := by simpa using hpos
          exact max_eq_right_iff.mp h'
        simp [hpos, hie, hple]

/-- C9 witness: two successive builds over the unchanged example log — the
second returns the identical rows, does not open the file and leaves the
cache untouched. -/
theorem c9_witness :
    buildDailySummaryFromFile initialCache (some exFv) = some exRunResult
  ∧ buildDailySummaryFromFile exRunResult.cache (some exFv) = some exRun2Result
  ∧ exRun2Result.rows = exRunResult.rows
  ∧ exRun2Result.openedFile = false ∧ exRun2Result.cache = exRunResult.cache :=
  ⟨rfl, rfl,
   (c9_amended_idempotent initialCache exFv exRunResult exRun2Result rfl rfl).1,
   ((c9_amended_idempotent initialCache exFv exRunResult exRun2Result rfl rfl).2.2
     (by decide) (by decide)).1,
   ((c9_amended_idempotent initialCache exFv exRunResult exRun2Result rfl rfl).2.2
     (by decide) (by decide)).2⟩

/-- Splitting distributes over append when the left part ends in a
newline. -/
lemma splitLinesAux_append :
    ∀ (a : List Char), a.getLast? = some '\n' →
      ∀ (acc b : List Char),
        splitLinesAux acc (a ++ b) = splitLinesAux acc a ++ splitLinesAux [] b := by
  have eqn : ∀ (a1 : List Char) (c : Char) (r : List Char),
      splitLinesAux a1 (c :: r) =
        if c = '\n' then (a1.reverse ++ ['\n']) :: splitLinesAux [] r
        else splitLinesAux (c :: a1) r := fun _ _ _ => rfl
  intro a
  induction a with
  | nil => intro h; simp at h
  | cons c a ih =>
    intro h acc b
    cases a with
    | nil =>
      simp at h
      subst h
      rw [List.cons_append, eqn, if_pos rfl, eqn, if_pos rfl]
      simp [splitLinesAux]
    | cons d a2 =>
      have ha : (d :: a2).getLast? = some '\n' := by
        rw [List.getLast?_cons_cons] at h
        exact h
      by_cases hc : c = '\n'
      · subst hc
        rw [List.cons_append, eqn, if_pos rfl, eqn, if_pos rfl, ih ha [] b]
        simp
      · rw [List.cons_append, eqn, if_neg hc, eqn, if_neg hc]
        exact ih ha (c :: acc) b

/-- A newline-less record followed by its newline is one line. -/
lemma splitLinesAux_no_nl :
    ∀ (r : List Char), (∀ c ∈ r, c ≠ '\n') →
      ∀ (acc : List Char),
        splitLinesAux acc (r ++ ['\n']) = [acc.reverse ++ r ++ ['\n']] := by
  have eqn : ∀ (a1 : List Char) (c : Char) (r : List Char),
      splitLinesAux a1 (c :: r) =
        if c = '\n' then (a1.reverse ++ ['\n']) :: splitLinesAux [] r
        else splitLinesAux (c :: a1) r := fun _ _ _ => rfl
  intro r
  induction r with
  | nil => intro _ acc; simp [splitLinesAux]
  | cons c r ih =>
    intro h acc
    have hc : c ≠ '\n' := h c (List.mem_cons_self c r)
    have hr : ∀ x ∈ r, x ≠ '\n' := fun x hx => h x (List.mem_cons_of_mem c hx)
    rw [List.cons_append, eqn, if_neg hc, ih hr (c :: acc)]
    simp

/-- Python's line iterator distributes over append at a newline boundary. -/
lemma pyLines_append (a b : List Char)
    (h : a = [] ∨ a.getLast? = some '\n') :
    pyLines (a ++ b) = pyLines a ++ pyLines b := by
  rcases h with h | h
  · subst h
    simp [pyLines, splitLinesAux]
  · exact splitLinesAux_append a h [] b

/-- One encoded record is one line. -/
lemma pyLines_encodeLine (r : List Char) (h : r.all (fun c => c ≠ '\n') = true) :
    pyLines (encodeLine r) = [r ++ ['\n']] := by
  have h2 : ∀ c ∈ r, c ≠ '\n' := by simpa using h
  have := splitLinesAux_no_nl r h2 []
  simpa [pyLines, encodeLine] using this

/-- Encoding distributes over append of record batches. -/
lemma encodeChunk_append (xs ys : List (List Char)) :
    encodeChunk (xs ++ ys) = encodeChunk xs ++ encodeChunk ys := by
  induction xs with
  | nil => simp [encodeChunk]
  | cons x xs ih => simp [encodeChunk, List.foldr_cons, List.append_assoc] at ih ⊢; rw [ih]

/-- An encoded batch is empty or ends in a newline. -/
lemma encodeChunk_ends (rs : List (List Char)) :
    encodeChunk rs = [] ∨ (encodeChunk rs).getLast? = some '\n' := by
  induction rs with
  | nil => exact Or.inl rfl
  | cons r rest ih =>
    right
    have hshape : encodeChunk (r :: rest) = (r ++ ['\n']) ++ encodeChunk rest := rfl
    rcases ih with h | h
    · rw [hshape, h, List.append_nil]
      simp
    · rw [hshape, List.getLast?_append]
      rw [h]
      rfl

/-- The lines of an encoded batch of newline-free records are exactly the
records, each with its newline. -/
lemma pyLines_encodeChunk (rs : List (List Char))
    (h : ∀ r ∈ rs, r.all (fun c => c ≠ '\n') = true) :
    pyLines (encodeChunk rs) = rs.map (fun r => r ++ ['\n']) := by
  induction rs with
  | nil => simp [encodeChunk, pyLines, splitLinesAux]
  | cons r rest ih =>
    have hshape : encodeChunk (r :: rest) = encodeLine r ++ encodeChunk rest := rfl
    rw [hshape, pyLines_append _ _ (Or.inr (by simp [encodeLine]))]
    rw [pyLines_encodeLine r (h r (List.mem_cons_self r rest))]
    rw [ih (fun x hx => h x (List.mem_cons_of_mem r hx))]
    rfl

/-- The read loop over concatenated line lists is the composition of the
loops. -/
lemma processLines_append (xs ys : List (List Char)) :
    ∀ (d : DailyMap),
      processLines d (xs ++ ys) =
        (processLines d xs).bind (fun d2 => processLines d2 ys) := by
  induction xs with
  | nil => intro d; rfl
  | cons l rest ih =>
    intro d
    show (match processLine d l with
          | none => none
          | some d2 => processLines d2 (rest ++ ys)) = _
    cases hl : processLine d l with
    | none => simp [processLines, hl]
    | some d2 => simp [processLines, hl, ih d2]

/-- A record that merges (or is skipped) without raising. -/
lemma mergeRecord_safe (rec : JVal) (h : recMergeSafe rec = true) :
    ∀ (daily : DailyMap), ∃ d2, mergeRecord daily rec = some d2 := by
  intro daily
  cases rec with
  | obj fields =>
    have hm : mergeRecord daily (JVal.obj fields) =
        (if (!pyTruthy (pyDictGet fields (lchars ("timestamp")))) = true then
          some daily
         else
          match pyDictGet fields (lchars ("timestamp")) with
          | JVal.str s =>
            some (daySet daily (splitT0 s)
              (mergeFields ((dayLookup daily (splitT0 s)).getD initDayState) fields))
          | _ => none) := rfl
    have hr : recMergeSafe (JVal.obj fields) =
        (match pyDictGet fields (lchars ("timestamp")) with
         | JVal.str _ => true
         | v => !pyTruthy v) := rfl
    rw [hr] at h
    cases hts : pyDictGet fields (lchars ("timestamp")) with
    | str s =>
      by_cases ht : pyTruthy (JVal.str s) = true
      · refine ⟨daySet daily (splitT0 s)
          (mergeFields ((dayLookup daily (splitT0 s)).getD initDayState) fields), ?_⟩
        rw [hm, hts]
        simp [ht]
      · refine ⟨daily, ?_⟩
        rw [hm, hts]
        simp [ht]
    | null =>
      refine ⟨daily, ?_⟩
      rw [hm, hts]
      simp [pyTruthy]
    | bool b =>
      rw [hts] at h
      simp [pyTruthy] at h
      refine ⟨daily, ?_⟩
      rw [hm, hts]
      simp [pyTruthy, h]
    | num q =>
      rw [hts] at h
      simp [pyTruthy] at h
      refine ⟨daily, ?_⟩
      rw [hm, hts]
      simp [pyTruthy, h]
    | arr xs =>
      rw [hts] at h
      simp [pyTruthy] at h
      refine ⟨daily, ?_⟩
      rw [hm, hts]
      simp [pyTruthy, h]
    | obj kvs =>
      rw [hts] at h
      simp [pyTruthy] at h
      refine ⟨daily, ?_⟩
      rw [hm, hts]
      simp [pyTruthy, h]
  | null => exact absurd h (by simp [recMergeSafe])
  | bool b => exact absurd h (by simp [recMergeSafe])
  | num q => exact absurd h (by simp [recMergeSafe])
  | str s => exact absurd h (by simp [recMergeSafe])
  | arr xs => exact absurd h (by simp [recMergeSafe])

/-- A safe line is consumed without raising. -/
lemma processLine_safe (l : List Char) (h : lineSafe l = true) :
    ∀ (daily : DailyMap), ∃ d2, processLine daily l = some d2 := by
  intro daily
  unfold processLine
  unfold lineSafe at h
  by_cases he : (stripChars l).isEmpty
  · exact ⟨daily, by simp [he]⟩
  · cases hj : jsonLoads (stripChars l) with
    | none => exact ⟨daily, by simp [he, hj]⟩
    | some rec =>
      rw [hj] at h
      obtain ⟨d2, hd2⟩ := mergeRecord_safe rec h daily
      exact ⟨d2, by simp [he, hj, hd2]⟩

/-- The read loop over safe lines never raises. -/
lemma processLines_safe (ls : List (List Char))
    (h : ∀ l ∈ ls, lineSafe l = true) :
    ∀ (daily : DailyMap), ∃ d2, processLines daily ls = some d2 := by
  induction ls with
  | nil => intro daily; exact ⟨daily, rfl⟩
  | cons l rest ih =>
    intro daily
    obtain ⟨d1, hd1⟩ := processLine_safe l (h l (List.mem_cons_self l rest)) daily
    obtain ⟨d2, hd2⟩ := ih (fun x hx => h x (List.mem_cons_of_mem l hx)) d1
    exact ⟨d2, by simp [processLines, hd1, hd2]⟩

/-- One `build_daily_summary_from_file` call from the cache state reached
over `c`, after `e` has been appended: the daily state becomes the one a
full scan of `c ++ e` yields, and the cache is the end-of-file state over
`c ++ e`. -/
lemma build_step (ino : ℕ) (c e : List Char) (D : DailyMap)
    (hnl : c = [] ∨ c.getLast? = some '\n')
    (hsafe : ∀ l ∈ pyLines e, lineSafe l = true)
    (hD : processLines [] (pyLines c) = some D) :
    ∃ D2 b, processLines [] (pyLines (c ++ e)) = some D2
      ∧ buildDailySummaryFromFile (goodCache ino c D) (some ⟨c ++ e, ino⟩) =
          some ⟨goodCache ino (c ++ e) D2, summariesFromState D2, b⟩ := by
  obtain ⟨D2, hD2⟩ := processLines_safe (pyLines e) hsafe D
  have hfull : processLines [] (pyLines (c ++ e)) = some D2 := by
    rw [pyLines_append c e hnl, processLines_append, hD]
    simpa using hD2
  refine ⟨D2, ?_⟩
  have hrc : rotationChecked (goodCache ino c D) ⟨c ++ e, ino⟩ = goodCache ino c D := by
    unfold rotationChecked
    split
    · rename_i hcnd
      exfalso
      simp [goodCache, List.length_append] at hcnd
    · rfl
  simp only [buildDailySummaryFromFile, hrc]
  split
  case isTrue hhit =>
    simp only [Bool.and_eq_true, decide_eq_true_eq, goodCache] at hhit
    have hlen : c.length = (c ++ e).length := hhit.1.2
    have he : e = [] := by
      rw [List.length_append] at hlen
      exact List.eq_nil_of_length_eq_zero (by omega)
    subst he
    have hD2D : D2 = D := by
      have h1 : processLines D (pyLines ([] : List Char)) = some D := rfl
      rw [h1] at hD2
      exact (Option.some_inj.mp hD2).symm
    subst hD2D
    exact ⟨false, hfull, by simp [goodCache]⟩
  case isFalse hhit =>
    refine ⟨true, hfull, ?_⟩
    have hdrop : (c ++ e).drop (goodCache ino c D).position = e := by
      simp [goodCache]
    rw [hdrop]
    have hdsD : (goodCache ino c D).dailyState = D := rfl
    rw [hdsD, hD2]
    simp [goodCache, List.length_append]

/-- A build from the fresh cache fully scans the file from byte 0. -/
lemma build_from_empty (ino : ℕ) (content : List Char) (D : DailyMap)
    (h : processLines [] (pyLines content) = some D) :
    buildDailySummaryFromFile initialCache (some ⟨content, ino⟩) =
      some ⟨goodCache ino content D, summariesFromState D, true⟩ := by
  have h0 : rotationChecked initialCache ⟨content, ino⟩ = initialCache := by
    unfold rotationChecked
    split <;> rfl
  simp only [buildDailySummaryFromFile, h0]
  split
  case isTrue hhit =>
    exfalso
    simp [initialCache] at hhit
  case isFalse hhit =>
    have hd : content.drop initialCache.position = content := List.drop_zero content
    rw [hd]
    have hds : initialCache.dailyState = ([] : DailyMap) := rfl
    rw [hds, h]
    simp [goodCache, initialCache]

/-- A build from the fresh cache coincides with a build from the empty
end-of-file cache over the empty log (both rescan from byte 0). -/
lemma build_initial_eq_good (ino : ℕ) (content : List Char) :
    buildDailySummaryFromFile initialCache (some ⟨content, ino⟩) =
      buildDailySummaryFromFile (goodCache ino [] []) (some ⟨content, ino⟩) := by
  have h0 : rotationChecked initialCache ⟨content, ino⟩ = initialCache := by
    unfold rotationChecked
    split <;> rfl
  have h1 : rotationChecked (goodCache ino [] []) ⟨content, ino⟩ =
      goodCache ino [] [] := by
    unfold rotationChecked
    split
    · rename_i hcnd
      exfalso
      simp [goodCache] at hcnd
    · rfl
  simp only [buildDailySummaryFromFile, h0, h1]
  have hs2 : (goodCache ino [] ([] : DailyMap)).summary = [] := rfl
  rw [if_neg (by simp [initialCache]), if_neg (by simp [hs2])]
  rfl

/-- The chain of polls from an end-of-file cache state returns, at the last
poll, the rendering of the full scan of everything written so far. -/
lemma runIncremental_good (ino : ℕ) :
    ∀ (chunks : List (List (List Char))), chunks ≠ [] →
      (∀ ch ∈ chunks, ∀ r ∈ ch, appendSafeLine r = true) →
      ∀ (sofar : List Char) (D : DailyMap),
        sofar = [] ∨ sofar.getLast? = some '\n' →
        processLines [] (pyLines sofar) = some D →
        ∃ D2, processLines [] (pyLines (sofar ++ encodeChunk (allRecords chunks))) = some D2
          ∧ runIncremental ino (goodCache ino sofar D) sofar chunks =
              some (summariesFromState D2) := by
  intro chunks
  induction chunks with
  | nil => intro h; exact absurd rfl h
  | cons ch rest ih =>
    intro _ hsafe sofar D hnl hD
    have hchsafe : ∀ r ∈ ch, appendSafeLine r = true :=
      hsafe ch (List.mem_cons_self ch rest)
    have hnonl : ∀ r ∈ ch, r.all (fun c => c ≠ '\n') = true := by
      intro r hr
      have hx := hchsafe r hr
      unfold appendSafeLine at hx
      exact (Bool.and_eq_true _ _).mp hx |>.1
    have hlsafe : ∀ l ∈ pyLines (encodeChunk ch), lineSafe l = true := by
      rw [pyLines_encodeChunk ch hnonl]
      intro l hl
      simp only [List.mem_map] at hl
      obtain ⟨r, hr, rfl⟩ := hl
      have hx := hchsafe r hr
      unfold appendSafeLine at hx
      exact ((Bool.and_eq_true _ _).mp hx).2
    obtain ⟨D1, b1, hfull1, hbuild1⟩ := build_step ino sofar (encodeChunk ch) D hnl hlsafe hD
    cases rest with
    | nil =>
      refine ⟨D1, ?_, ?_⟩
      · have hall : allRecords [ch] = ch := by simp [allRecords]
        rw [hall]
        exact hfull1
      · simp only [runIncremental]
        rw [hbuild1]
    | cons ch2 rest2 =>
      have hsafe2 : ∀ c2 ∈ ch2 :: rest2, ∀ r ∈ c2, appendSafeLine r = true :=
        fun c2 hc2 => hsafe c2 (List.mem_cons_of_mem ch hc2)
      have hnl2 : sofar ++ encodeChunk ch = [] ∨
          (sofar ++ encodeChunk ch).getLast? = some '\n' := by
        rcases encodeChunk_ends ch with he | he
        · rw [he, List.append_nil]
          exact hnl
        · right
          rw [List.getLast?_append, he]
          rfl
      obtain ⟨D2, hfull2, hrun2⟩ :=
        ih (by simp) hsafe2 (sofar ++ encodeChunk ch) D1 hnl2 hfull1
      refine ⟨D2, ?_, ?_⟩
      · have hall : allRecords (ch :: ch2 :: rest2) = ch ++ allRecords (ch2 :: rest2) := rfl
        rw [hall, encodeChunk_append, ← List.append_assoc]
        exact hfull2
      · simp only [runIncremental]
        rw [hbuild1]
        exact hrun2

/-- C4.  Appending batches of complete, crash-safe record lines across any
number of `get_snapshot()` calls (same file identity, no truncation) and
taking the last call's snapshot gives exactly the snapshot of one batch
build over all the records from a fresh, empty cache: incremental merging
equals batch merging.  Valid records in the specification's sense (JSON
objects with a string timestamp, no embedded newline) satisfy
`appendSafeLine`. -/
theorem c4_incremental_matches_batch :
    ∀ (chunks : List (List (List Char))) (ino : ℕ),
      chunks ≠ [] →
      (∀ ch ∈ chunks, ∀ r ∈ ch, appendSafeLine r = true) →
      runIncremental ino initialCache [] chunks =
        (buildDailySummaryFromFile initialCache
          (some ⟨encodeChunk (allRecords chunks), ino⟩)).map (fun r => r.rows) := by
  intro chunks ino hne hsafe
  have hswitch : runIncremental ino initialCache [] chunks =
      runIncremental ino (goodCache ino [] []) [] chunks := by
    cases chunks with
    | nil => rfl
    | cons ch rest =>
      simp only [runIncremental, build_initial_eq_good]
  obtain ⟨D2, hfull, hrun⟩ := runIncremental_good ino chunks hne hsafe [] [] (Or.inl rfl) rfl
  rw [hswitch, hrun]
  have hfull2 : processLines [] (pyLines (encodeChunk (allRecords chunks))) = some D2 := by
    simpa using hfull
  rw [build_from_empty ino _ D2 hfull2]
  rfl

/-- C4 witness: two single-record batches across two calls versus one
batch build of both records. -/
theorem c4_witness :
    c4chunks ≠ []
  ∧ (∀ ch ∈ c4chunks, ∀ r ∈ ch, appendSafeLine r = true)
  ∧ runIncremental 5 initialCache [] c4chunks =
      (buildDailySummaryFromFile initialCache
        (some ⟨encodeChunk (allRecords c4chunks), 5⟩)).map (fun r => r.rows) :=
  ⟨by decide, by decide,
   c4_incremental_matches_batch c4chunks 5 (by decide) (by decide)⟩

end ConnTester
